import Mathlib

/-!
Shallow embedding of the scheduling / dedup / polling core of
`inline_wedding_bot.py` (class `InlineWeddingBot`), together with proofs of
the specified properties.

Modelling conventions:
* Timestamps (`datetime` values) are epoch seconds as `Int`; the Python code
  only ever compares them with `<=` / `>=` and takes
  `abs((a - b).total_seconds()) < 60`, which becomes `(a - b).natAbs < 60`.
* `self.scheduled_messages` is a `List ScheduledMessage`; the boolean paired
  with a mutating operation's result records whether `save_schedule` was
  called (persistence effect).
* Outbound network calls (`send_message`, `answer_callback_query`) catch all
  of their own exceptions and report success as a `Bool`; they are modelled
  by outcome oracles where the result matters and are otherwise elided, since
  the callers under verification ignore the returned status.
* The long announcement texts are abbreviated: no property depends on their
  content, only on the count and trigger times of the seeded entries.
-/

namespace WeddingBot

/-- A scheduled announcement: the tuple `(target_date, message_text,
include_buttons)` appended to `self.scheduled_messages`. -/
structure ScheduledMessage where
  target_date : Int
  message_text : String
  include_buttons : Bool
deriving DecidableEq, Repr

/-- Inner loop of `remove_duplicate_schedules`: walk the list in order and
keep an entry unless its date is within 60 seconds of one already accepted
into `unique_messages`. -/
def remove_duplicate_schedules_loop :
    List ScheduledMessage → List ScheduledMessage → List ScheduledMessage
  | [], unique_messages => unique_messages
  | m :: rest, unique_messages =>
    if unique_messages.any (fun e => decide ((m.target_date - e.target_date).natAbs < 60)) then
      remove_duplicate_schedules_loop rest unique_messages
    else
      remove_duplicate_schedules_loop rest (unique_messages ++ [m])

/-- `remove_duplicate_schedules`: returns the (possibly cleaned) list and
whether `save_schedule` was triggered.  The source returns early on an empty
list, and saves only when the deduplicated list is shorter. -/
def remove_duplicate_schedules (scheduled_messages : List ScheduledMessage) :
    List ScheduledMessage × Bool :=
  if scheduled_messages.isEmpty then (scheduled_messages, false)
  else
    let unique_messages := remove_duplicate_schedules_loop scheduled_messages []
    if unique_messages.length ≠ scheduled_messages.length then (unique_messages, true)
    else (scheduled_messages, false)

/-- `add_scheduled_message`: skip (no save) when an existing entry is within
60 seconds of `target_date`; otherwise append and save. -/
def add_scheduled_message (scheduled_messages : List ScheduledMessage)
    (target_date : Int) (message_text : String) (include_buttons : Bool) :
    List ScheduledMessage × Bool :=
  if scheduled_messages.any (fun e => decide ((target_date - e.target_date).natAbs < 60)) then
    (scheduled_messages, false)
  else
    (scheduled_messages ++ [⟨target_date, message_text, include_buttons⟩], true)

/-- Epoch seconds of `datetime(2025, 9, 27, 8, 0)` localized to
Asia/Singapore (UTC+8), i.e. 2025-09-27 00:00:00 UTC. -/
def weddingDate : Int := 1758931200

/-- The three expected trigger times computed in `check_if_schedule_exists`:
one week before, one day before, and the wedding morning. -/
def expected_dates : List Int :=
  [weddingDate - 7 * 86400, weddingDate - 1 * 86400, weddingDate]

/-- `check_if_schedule_exists`: `False` on an empty schedule, otherwise scan
for any stored date within 60 seconds of any expected date. -/
def check_if_schedule_exists (scheduled_messages : List ScheduledMessage) : Bool :=
  if scheduled_messages.length == 0 then false
  else
    expected_dates.any (fun expected_date =>
      scheduled_messages.any (fun msg =>
        decide ((expected_date - msg.target_date).natAbs < 60)))

/-- `check_scheduled_messages` (the dispatcher tick).  `sendOk` is the
outcome oracle for `send_message`, whose return value the source discards.
The source records the indices of due entries while sending them in order,
then pops those indices in reverse, and saves iff any index was recorded.
Result: `(remaining schedule, dispatched entries with send outcomes,
save_schedule called)`. -/
def check_scheduled_messages (sendOk : ScheduledMessage → Bool) (current_time : Int)
    (scheduled_messages : List ScheduledMessage) :
    List ScheduledMessage × List (ScheduledMessage × Bool) × Bool :=
  let indexed := scheduled_messages.enum
  let due := indexed.filter (fun p => decide (p.2.target_date ≤ current_time))
  let messages_to_remove := due.map Prod.fst
  let sent := due.map (fun p => (p.2, sendOk p.2))
  let remaining := (indexed.filter (fun p => decide (p.1 ∉ messages_to_remove))).map Prod.snd
  (remaining, sent, ! messages_to_remove.isEmpty)

/-- In-memory bot state relevant to seeding: the schedule list and the
`schedule_initialized` flag computed at startup. -/
structure BotState where
  scheduled_messages : List ScheduledMessage
  schedule_initialized : Bool
deriving DecidableEq, Repr

/-- Startup path of `__init__`: `load_schedule` result is cleaned by
`remove_duplicate_schedules`, then `schedule_initialized` is computed by
`check_if_schedule_exists`. -/
def bootFrom (loaded : List ScheduledMessage) : BotState :=
  let msgs := (remove_duplicate_schedules loaded).1
  { scheduled_messages := msgs, schedule_initialized := check_if_schedule_exists msgs }

/-- Abbreviated text of the one-week reminder. -/
def week_message : String := "One Week Until the Wedding"

/-- Abbreviated text of the one-day reminder. -/
def day_message : String := "Tomorrow is the Wedding Day"

/-- Abbreviated text of the wedding-morning reminder. -/
def morning_message : String := "IT IS WEDDING DAY"

/-- `schedule_wedding_reminders`: return unchanged if
`schedule_initialized`; otherwise add the three reminders (one week before
and one day before without buttons, wedding morning with buttons) through
`add_scheduled_message`.  The source never mutates `schedule_initialized`
here. -/
def schedule_wedding_reminders (s : BotState) : BotState :=
  if s.schedule_initialized then s
  else
    let one_week_before := weddingDate - 7 * 86400
    let one_day_before := weddingDate - 1 * 86400
    let wedding_morning := weddingDate
    let m1 := (add_scheduled_message s.scheduled_messages one_week_before week_message false).1
    let m2 := (add_scheduled_message m1 one_day_before day_message false).1
    let m3 := (add_scheduled_message m2 wedding_morning morning_message true).1
    { scheduled_messages := m3, schedule_initialized := s.schedule_initialized }

/-- Truncation in `answer_callback_query`, on the character sequence of the
popup text: texts over 200 characters become the first 197 characters
followed by three dots. -/
def answer_callback_query_text (text : List Char) : List Char :=
  if text.length > 200 then text.take 197 ++ ['.', '.', '.'] else text

/-- A `new_chat_members` entry; only the bot flag matters to the handler. -/
structure ChatMember where
  is_bot : Bool
deriving DecidableEq, Repr

/-- `process_new_members` over the sequence of non-skipped members: carries
`member_count` through, counting welcome broadcasts (one whenever the
incremented count is a multiple of 25; bots are skipped).  Result:
`(member_count, number of milestone broadcasts sent)`. -/
def process_new_members (member_count : Nat) (new_members : List ChatMember) :
    Nat × Nat :=
  new_members.foldl
    (fun acc member =>
      if member.is_bot then acc
      else
        let count := acc.1 + 1
        if count % 25 == 0 then (count, acc.2 + 1) else (count, acc.2))
    (member_count, 0)

/-- Outcome of the filesystem interaction inside `load_schedule`. -/
inductive LoadOutcome where
  | fileMissing
  | readFailure
  | deserializeFailure
  | stored (schedule : List ScheduledMessage)
deriving DecidableEq

/-- Body of the `try` block in `load_schedule`: a missing file falls through
to the final `return []`; an open or unpickle failure raises. -/
def read_schedule_file : LoadOutcome → Except String (List ScheduledMessage)
  | .fileMissing => .ok []
  | .readFailure => .error "could not open schedule file"
  | .deserializeFailure => .error "could not unpickle schedule file"
  | .stored schedule => .ok schedule

/-- `load_schedule`: the `except` clause turns every raised error into the
empty schedule; no error escapes to the caller. -/
def load_schedule (outcome : LoadOutcome) : List ScheduledMessage :=
  match read_schedule_file outcome with
  | .ok schedule => schedule
  | .error _ => []

/-- One polled event: its `update_id` and the outcome of whichever handler
(`handle_callback_query` or the message path) it is dispatched to — those
handlers catch their own exceptions and report success as a boolean. -/
structure TelegramUpdate where
  update_id : Int
  handled_ok : Bool
deriving DecidableEq, Repr

/-- The `for update in updates` body of one `run_forever` iteration:
`self.last_update_id = update['update_id']` first, then dispatch.  Result:
final cursor and the handler outcomes in receipt order. -/
def process_update_batch (last_update_id : Int) (updates : List TelegramUpdate) :
    Int × List Bool :=
  updates.foldl (fun st u => (u.update_id, st.2 ++ [u.handled_ok])) (last_update_id, [])

/-- The store invariant of the spec: every two distinct entries have trigger
times at least 60 seconds apart. -/
def Separated (l : List ScheduledMessage) : Prop :=
  l.Pairwise (fun a b => 60 ≤ (a.target_date - b.target_date).natAbs)

/-- Store states reachable through the mutations under verification: any
startup state (load + cleanup), closed under `add_scheduled_message` and
`remove_duplicate_schedules`. -/
inductive Reachable : List ScheduledMessage → Prop where
  | boot (loaded : List ScheduledMessage) :
      Reachable (remove_duplicate_schedules loaded).1
  | add (s : List ScheduledMessage) (t : Int) (text : String) (b : Bool) :
      Reachable s → Reachable (add_scheduled_message s t text b).1
  | dedup (s : List ScheduledMessage) :
      Reachable s → Reachable (remove_duplicate_schedules s).1

/-! ### Helper lemmas -/

theorem process_update_batch_foldl (updates : List TelegramUpdate) :
    ∀ (last_update_id : Int) (acc : List Bool),
      updates.foldl (fun st u => (u.update_id, st.2 ++ [u.handled_ok])) (last_update_id, acc)
        = ((updates.map TelegramUpdate.update_id).getLastD last_update_id,
            acc ++ updates.map TelegramUpdate.handled_ok) := by
  induction updates with
  | nil => intro c acc; simp
  | cons u us ih =>
      intro c acc
      simp only [List.foldl_cons, List.map_cons, List.getLastD_cons]
      rw [ih]
      simp

theorem map_snd_filter_enumFrom {α : Type} (q : α → Bool) :
    ∀ (l : List α) (n : Nat),
      ((l.enumFrom n).filter (fun p => q p.2)).map Prod.snd = l.filter q
  | [], _ => rfl
  | a :: l, n => by
      simp only [List.enumFrom_cons, List.filter_cons]
      by_cases h : q a
      · simp [h, map_snd_filter_enumFrom q l (n + 1)]
      · simp [h, map_snd_filter_enumFrom q l (n + 1)]

theorem fst_inj_enumFrom {α : Type} :
    ∀ (l : List α) (n : Nat) (p r : Nat × α),
      p ∈ l.enumFrom n → r ∈ l.enumFrom n → p.1 = r.1 → p = r
  | [], _, _, _, hp, _, _ => absurd hp (List.not_mem_nil _)
  | a :: l, n, p, r, hp, hr, hpr => by
      rw [List.enumFrom_cons] at hp hr
      rcases List.mem_cons.mp hp with hp1 | hp2 <;>
        rcases List.mem_cons.mp hr with hr1 | hr2
      · rw [hp1, hr1]
      · subst hp1
        have hge := List.le_fst_of_mem_enumFrom hr2
        simp only [] at hpr
        omega
      · subst hr1
        have hge := List.le_fst_of_mem_enumFrom hp2
        simp only [] at hpr
        omega
      · exact fst_inj_enumFrom l (n + 1) p r hp2 hr2 hpr

theorem mem_dueIdx_iff {α : Type} (q : α → Bool) (l : List α) (n : Nat)
    (p : Nat × α) (hp : p ∈ l.enumFrom n) :
    p.1 ∈ ((l.enumFrom n).filter (fun r => q r.2)).map Prod.fst ↔ q p.2 = true := by
  constructor
  · intro hmem
    rcases List.mem_map.mp hmem with ⟨r, hr, hr1⟩
    have hrenum := (List.mem_filter.mp hr).1
    have hq := (List.mem_filter.mp hr).2
    rw [← fst_inj_enumFrom l n r p hrenum hp hr1]
    exact hq
  · intro hq
    exact List.mem_map.mpr ⟨p, List.mem_filter.mpr ⟨hp, hq⟩, rfl⟩

theorem remaining_eq_filter {α : Type} (q : α → Bool) (l : List α) (n : Nat) :
    (((l.enumFrom n).filter (fun p =>
        decide (p.1 ∉ ((l.enumFrom n).filter (fun r => q r.2)).map Prod.fst))).map
      Prod.snd) = l.filter (fun a => ! q a) := by
  rw [List.filter_congr (q := fun p : Nat × α => ! q p.2) (fun p hp => ?_)]
  · exact map_snd_filter_enumFrom (fun a => ! q a) l n
  · have hiff := mem_dueIdx_iff q l n p hp
    by_cases hq : q p.2 = true
    · simp [hiff, hq]
    · have hq' : q p.2 = false := Bool.eq_false_iff.mpr hq
      have hnot := fun hmem => hq (hiff.mp hmem)
      show decide _ = ! q p.2
      rw [hq']
      exact decide_eq_true hnot

theorem any_eq_not_isEmpty_filter {α : Type} (q : α → Bool) :
    ∀ l : List α, l.any q = ! (l.filter q).isEmpty
  | [] => rfl
  | a :: l => by
      simp only [List.any_cons, List.filter_cons]
      cases h : q a
      · simp [any_eq_not_isEmpty_filter q l]
      · simp

/-! ### Claim theorems (first batch) -/

/-- C6: the popup-answer text is always at most 200 characters, and any text
longer than 200 characters is truncated to exactly 200 characters ending in
three dots. -/
theorem C6_answer_text_truncated (text : List Char) :
    (answer_callback_query_text text).length ≤ 200 ∧
      (200 < text.length →
        (answer_callback_query_text text).length = 200 ∧
          (answer_callback_query_text text).drop 197 = ['.', '.', '.']) := by
  unfold answer_callback_query_text
  by_cases h : text.length > 200
  · rw [if_pos h]
    have htake : (text.take 197).length = 197 := by
      simp [List.length_take]; omega
    refine ⟨?_, fun _ => ⟨?_, ?_⟩⟩
    · simp [List.length_append, htake]
    · simp [List.length_append, htake]
    · rw [List.drop_append_of_le_length (by omega)]
      rw [List.drop_eq_nil_of_le (by omega), List.nil_append]
  · rw [if_neg h]
    exact ⟨by omega, fun hc => absurd hc h⟩

set_option maxRecDepth 100000 in
/-- C6 witness: a 250-character input is sent as exactly 200 characters
ending in three dots. -/
theorem C6_answer_text_truncated_witness :
    200 < (List.replicate 250 'a').length ∧
      (answer_callback_query_text (List.replicate 250 'a')).length = 200 ∧
        (answer_callback_query_text (List.replicate 250 'a')).drop 197 = ['.', '.', '.'] :=
  ⟨by decide, (C6_answer_text_truncated (List.replicate 250 'a')).2 (by decide)⟩

set_option maxRecDepth 100000 in
/-- C7: starting from a counter of 0, twenty-four non-bot joins produce no
broadcast and the twenty-fifth produces exactly one; a bot member is skipped
entirely (neither counted nor broadcast); in general a single non-bot join
broadcasts exactly when the incremented counter is a multiple of 25. -/
theorem C7_membership_milestones :
    (process_new_members 0 (List.replicate 24 ⟨false⟩)).2 = 0 ∧
      (process_new_members 0 (List.replicate 25 ⟨false⟩)).2 = 1 ∧
      (∀ (member_count : Nat) (rest : List ChatMember),
        process_new_members member_count (⟨true⟩ :: rest) =
          process_new_members member_count rest) ∧
      (∀ member_count : Nat,
        process_new_members member_count [⟨false⟩] =
          (member_count + 1, if (member_count + 1) % 25 == 0 then 1 else 0)) := by
  refine ⟨by decide, by decide, fun c rest => rfl, fun c => ?_⟩
  simp only [process_new_members, List.foldl_cons, List.foldl_nil]
  by_cases h : (c + 1) % 25 == 0 <;> simp [h]

/-- C8: `load_schedule` returns the stored sequence exactly on a successful
read and deserialize; a missing file yields the empty sequence; every error
raised inside the read is caught and also yields the empty sequence, so no
error reaches the caller. -/
theorem C8_load_schedule_never_fails (outcome : LoadOutcome) :
    (∀ schedule, load_schedule (LoadOutcome.stored schedule) = schedule) ∧
      load_schedule LoadOutcome.fileMissing = [] ∧
      (∀ e, read_schedule_file outcome = Except.error e → load_schedule outcome = []) := by
  refine ⟨fun schedule => rfl, rfl, fun e he => ?_⟩
  unfold load_schedule
  rw [he]

/-- C8 witness: a read failure raises inside the `try` block and the caller
still receives the empty sequence. -/
theorem C8_load_schedule_never_fails_witness :
    read_schedule_file LoadOutcome.readFailure =
        Except.error "could not open schedule file" ∧
      load_schedule LoadOutcome.readFailure = [] :=
  ⟨rfl, (C8_load_schedule_never_fails LoadOutcome.readFailure).2.2
    "could not open schedule file" rfl⟩

/-- C3: one pass of the polling loop advances the cursor to each event
identifier in receipt order — so it ends at the last event's identifier
(or stays put on an empty batch) — and dispatches every event whatever each
handler's outcome; in particular from cursor 4 with events [5, 6, 9] the
cursor ends at 9 for every combination of handler outcomes. -/
theorem C3_cursor_reaches_last_update (last_update_id : Int)
    (updates : List TelegramUpdate) :
    (process_update_batch last_update_id updates).1 =
        (updates.map TelegramUpdate.update_id).getLastD last_update_id ∧
      (process_update_batch last_update_id updates).2 =
        updates.map TelegramUpdate.handled_ok ∧
      (∀ ok5 ok6 ok9 : Bool,
        (process_update_batch 4 [⟨5, ok5⟩, ⟨6, ok6⟩, ⟨9, ok9⟩]).1 = 9) := by
  unfold process_update_batch
  rw [process_update_batch_foldl]
  exact ⟨rfl, by simp, fun ok5 ok6 ok9 => rfl⟩

theorem isEmpty_eq_decide_length {β : Type} (l : List β) :
    l.isEmpty = decide (l.length = 0) := by
  cases l <;> rfl

/-- C9: a dispatcher tick keeps exactly the entries whose trigger time is
still in the future, unchanged and in their original relative order — the
remaining schedule is the filter of the old one by `current_time <
target_date`. -/
theorem C9_tick_keeps_future_entries (sendOk : ScheduledMessage → Bool)
    (current_time : Int) (scheduled_messages : List ScheduledMessage) :
    (check_scheduled_messages sendOk current_time scheduled_messages).1 =
      scheduled_messages.filter (fun m => decide (current_time < m.target_date)) := by
  have h := remaining_eq_filter
    (fun m : ScheduledMessage => decide (m.target_date ≤ current_time)) scheduled_messages 0
  simp only [check_scheduled_messages]
  rw [show scheduled_messages.enum = scheduled_messages.enumFrom 0 from rfl, h]
  refine List.filter_congr fun m _ => ?_
  show (! decide (m.target_date ≤ current_time)) = decide (current_time < m.target_date)
  rw [← decide_not]
  exact decide_eq_decide.mpr Int.not_le

/-- C4: a dispatcher tick dispatches exactly the entries with trigger time
at or before `current_time`, in order, whatever each send's outcome; it
removes exactly those entries; it persists iff at least one entry was due;
and concretely a single entry due one second ago is dispatched and removed
while a tick on the empty store is a no-op. -/
theorem C4_tick_dispatches_and_removes_due (sendOk : ScheduledMessage → Bool)
    (current_time : Int) (scheduled_messages : List ScheduledMessage) :
    ((check_scheduled_messages sendOk current_time scheduled_messages).2.1 =
        (scheduled_messages.filter (fun m => decide (m.target_date ≤ current_time))).map
          (fun m => (m, sendOk m)) ∧
      (check_scheduled_messages sendOk current_time scheduled_messages).1 =
        scheduled_messages.filter (fun m => ! decide (m.target_date ≤ current_time)) ∧
      (check_scheduled_messages sendOk current_time scheduled_messages).2.2 =
        scheduled_messages.any (fun m => decide (m.target_date ≤ current_time))) ∧
      (∀ (body : String) (menu : Bool),
        check_scheduled_messages sendOk current_time [⟨current_time - 1, body, menu⟩] =
          ([], [(⟨current_time - 1, body, menu⟩, sendOk ⟨current_time - 1, body, menu⟩)],
            true)) ∧
      check_scheduled_messages sendOk current_time [] = ([], [], false) := by
  have hq : ∀ (l : List ScheduledMessage),
      ((l.enumFrom 0).filter
          (fun p => decide (p.2.target_date ≤ current_time))).map Prod.snd =
        l.filter (fun m => decide (m.target_date ≤ current_time)) :=
    fun l => map_snd_filter_enumFrom (fun m => decide (m.target_date ≤ current_time)) l 0
  refine ⟨⟨?_, ?_, ?_⟩, ?_, rfl⟩
  · simp only [check_scheduled_messages]
    rw [show scheduled_messages.enum = scheduled_messages.enumFrom 0 from rfl]
    rw [show (fun p : Nat × ScheduledMessage => (p.2, sendOk p.2)) =
      ((fun m => (m, sendOk m)) ∘ Prod.snd) from rfl]
    rw [← List.map_map, hq scheduled_messages]
  · simp only [check_scheduled_messages]
    rw [show scheduled_messages.enum = scheduled_messages.enumFrom 0 from rfl]
    exact remaining_eq_filter
      (fun m : ScheduledMessage => decide (m.target_date ≤ current_time)) scheduled_messages 0
  · simp only [check_scheduled_messages]
    rw [show scheduled_messages.enum = scheduled_messages.enumFrom 0 from rfl]
    rw [any_eq_not_isEmpty_filter]
    have hlen : ((scheduled_messages.enumFrom 0).filter
          (fun p => decide (p.2.target_date ≤ current_time))).length =
        (scheduled_messages.filter (fun m => decide (m.target_date ≤ current_time))).length := by
      rw [← hq scheduled_messages, List.length_map]
    rw [isEmpty_eq_decide_length, isEmpty_eq_decide_length, List.length_map, hlen]
  · intro body menu
    have hle : decide ((current_time - 1 : Int) ≤ current_time) = true :=
      decide_eq_true (by omega)
    have henum : ([(⟨current_time - 1, body, menu⟩ : ScheduledMessage)]).enum =
        [(0, (⟨current_time - 1, body, menu⟩ : ScheduledMessage))] := rfl
    simp only [check_scheduled_messages, henum, List.filter_cons, List.filter_nil, hle]
    simp [List.filter_cons]

instance (l : List ScheduledMessage) : Decidable (Separated l) := by
  unfold Separated; infer_instance

theorem remove_duplicate_schedules_eq (l : List ScheduledMessage) :
    remove_duplicate_schedules l =
      if l.isEmpty then (l, false)
      else if (remove_duplicate_schedules_loop l []).length ≠ l.length
        then (remove_duplicate_schedules_loop l [], true) else (l, false) := rfl

theorem sep_loop (msgs : List ScheduledMessage) :
    ∀ acc, Separated acc → Separated (remove_duplicate_schedules_loop msgs acc) := by
  induction msgs with
  | nil => intro acc h; exact h
  | cons m rest ih =>
      intro acc h
      simp only [remove_duplicate_schedules_loop]
      by_cases hdup :
        acc.any (fun e => decide ((m.target_date - e.target_date).natAbs < 60)) = true
      · rw [if_pos hdup]; exact ih acc h
      · rw [if_neg hdup]
        refine ih (acc ++ [m]) ?_
        have hall := List.any_eq_false.mp (Bool.eq_false_iff.mpr hdup)
        refine List.pairwise_append.mpr ⟨h, by simp, ?_⟩
        intro a ha c hc
        rw [List.mem_singleton.mp hc]
        have h60 : ¬ ((m.target_date - a.target_date).natAbs < 60) := by
          intro hlt; exact hall a ha (decide_eq_true hlt)
        show 60 ≤ (a.target_date - m.target_date).natAbs
        omega

theorem loop_sublist (msgs : List ScheduledMessage) :
    ∀ acc, (remove_duplicate_schedules_loop msgs acc).Sublist (acc ++ msgs) := by
  induction msgs with
  | nil => intro acc; simp [remove_duplicate_schedules_loop]
  | cons m rest ih =>
      intro acc
      simp only [remove_duplicate_schedules_loop]
      by_cases hdup :
        acc.any (fun e => decide ((m.target_date - e.target_date).natAbs < 60)) = true
      · rw [if_pos hdup]
        exact (ih acc).trans (List.Sublist.append_left (List.sublist_cons_self m rest) acc)
      · rw [if_neg hdup]
        have hs := ih (acc ++ [m])
        rwa [List.append_assoc, List.singleton_append] at hs

theorem loop_of_separated (msgs : List ScheduledMessage) :
    ∀ acc, Separated (acc ++ msgs) →
      remove_duplicate_schedules_loop msgs acc = acc ++ msgs := by
  induction msgs with
  | nil => intro acc _; simp [remove_duplicate_schedules_loop]
  | cons m rest ih =>
      intro acc h
      simp only [remove_duplicate_schedules_loop]
      have hcross := (List.pairwise_append.mp h).2.2
      have hdup :
          acc.any (fun e => decide ((m.target_date - e.target_date).natAbs < 60)) = false := by
        refine List.any_eq_false.mpr fun e he => ?_
        intro hc
        have hlt : (m.target_date - e.target_date).natAbs < 60 := of_decide_eq_true hc
        have h60 := hcross e he m (List.mem_cons_self m rest)
        omega
      rw [if_neg (by simp [hdup])]
      have h' : Separated ((acc ++ [m]) ++ rest) := by
        rwa [List.append_assoc, List.singleton_append]
      rw [ih (acc ++ [m]) h', List.append_assoc, List.singleton_append]

theorem separated_remove_duplicate_schedules (l : List ScheduledMessage) :
    Separated (remove_duplicate_schedules l).1 := by
  rw [remove_duplicate_schedules_eq]
  by_cases hemp : l.isEmpty
  · rw [if_pos hemp]
    rw [List.isEmpty_iff.mp hemp]
    exact List.Pairwise.nil
  · rw [if_neg hemp]
    have hu : Separated (remove_duplicate_schedules_loop l []) :=
      sep_loop l [] List.Pairwise.nil
    by_cases hlen : (remove_duplicate_schedules_loop l []).length ≠ l.length
    · rw [if_pos hlen]; exact hu
    · rw [if_neg hlen]
      have heq : remove_duplicate_schedules_loop l [] = l :=
        List.Sublist.eq_of_length (by simpa using loop_sublist l []) (not_ne_iff.mp hlen)
      rw [← heq]
      exact hu

theorem remove_duplicate_schedules_of_separated (l : List ScheduledMessage)
    (h : Separated l) : remove_duplicate_schedules l = (l, false) := by
  rw [remove_duplicate_schedules_eq]
  by_cases hemp : l.isEmpty
  · rw [if_pos hemp]
  · rw [if_neg hemp]
    have heq : remove_duplicate_schedules_loop l [] = l :=
      loop_of_separated l [] (by simpa using h)
    rw [heq, if_neg (by simp)]

theorem separated_add_scheduled_message (s : List ScheduledMessage) (t : Int)
    (text : String) (b : Bool) (h : Separated s) :
    Separated (add_scheduled_message s t text b).1 := by
  unfold add_scheduled_message
  by_cases hdup : s.any (fun e => decide ((t - e.target_date).natAbs < 60)) = true
  · rw [if_pos hdup]; exact h
  · rw [if_neg hdup]
    have hall := List.any_eq_false.mp (Bool.eq_false_iff.mpr hdup)
    show Separated (s ++ [⟨t, text, b⟩])
    refine List.pairwise_append.mpr ⟨h, by simp, ?_⟩
    intro a ha c hc
    rw [List.mem_singleton.mp hc]
    have h60 : ¬ ((t - a.target_date).natAbs < 60) := by
      intro hlt; exact hall a ha (decide_eq_true hlt)
    show 60 ≤ (a.target_date - t).natAbs
    omega

/-- C1: every store state reachable through startup cleanup,
`add_scheduled_message` and `remove_duplicate_schedules` has all pairs of
entries at least 60 seconds apart. -/
theorem C1_reachable_states_separated (s : List ScheduledMessage)
    (h : Reachable s) : Separated s := by
  induction h with
  | boot loaded => exact separated_remove_duplicate_schedules loaded
  | add s t text b _ _ => exact separated_add_scheduled_message s t text b (by assumption)
  | dedup s _ _ => exact separated_remove_duplicate_schedules s

/-- C1 witness: the startup state obtained from an empty persisted store is
reachable and separated. -/
theorem C1_reachable_states_separated_witness :
    Separated (remove_duplicate_schedules []).1 :=
  C1_reachable_states_separated _ (Reachable.boot [])

/-- C5: deduplication only ever drops entries, preserving first-seen order;
on a 5-entry input whose entries at indices 1 and 3 are within 60 seconds of
entry 0, exactly the entries at indices 0, 2 and 4 remain and the cleaned
sequence is persisted. -/
theorem C5_remove_duplicates_first_seen_wins :
    (∀ l : List ScheduledMessage, ((remove_duplicate_schedules l).1).Sublist l) ∧
      remove_duplicate_schedules
          [⟨0, "a", false⟩, ⟨30, "b", false⟩, ⟨1000, "c", false⟩, ⟨59, "d", false⟩,
            ⟨2000, "e", false⟩] =
        ([⟨0, "a", false⟩, ⟨1000, "c", false⟩, ⟨2000, "e", false⟩], true) := by
  constructor
  · intro l
    rw [remove_duplicate_schedules_eq]
    by_cases hemp : l.isEmpty
    · rw [if_pos hemp]
    · rw [if_neg hemp]
      by_cases hlen : (remove_duplicate_schedules_loop l []).length ≠ l.length
      · rw [if_pos hlen]; simpa using loop_sublist l []
      · rw [if_neg hlen]
  · decide

/-- C10: deduplication of an already-separated sequence keeps every entry
unchanged and does not persist; this applies to its own output, and the
empty sequence is a no-op. -/
theorem C10_remove_duplicates_idempotent :
    (∀ l : List ScheduledMessage, Separated l →
        remove_duplicate_schedules l = (l, false)) ∧
      (∀ l : List ScheduledMessage,
        remove_duplicate_schedules (remove_duplicate_schedules l).1 =
          ((remove_duplicate_schedules l).1, false)) ∧
      remove_duplicate_schedules [] = ([], false) :=
  ⟨fun l h => remove_duplicate_schedules_of_separated l h,
    fun l => remove_duplicate_schedules_of_separated _
      (separated_remove_duplicate_schedules l),
    rfl⟩

/-- C10 witness: a concrete separated two-entry store is left untouched and
unsaved by deduplication. -/
theorem C10_remove_duplicates_idempotent_witness :
    Separated [⟨0, "a", false⟩, ⟨100, "b", true⟩] ∧
      remove_duplicate_schedules [⟨0, "a", false⟩, ⟨100, "b", true⟩] =
        ([⟨0, "a", false⟩, ⟨100, "b", true⟩], false) :=
  ⟨by decide, C10_remove_duplicates_idempotent.1 _ (by decide)⟩

/-- The one-week reminder entry created by `schedule_wedding_reminders`. -/
def seedEntryWeek : ScheduledMessage := ⟨weddingDate - 7 * 86400, week_message, false⟩

/-- The one-day reminder entry created by `schedule_wedding_reminders`. -/
def seedEntryDay : ScheduledMessage := ⟨weddingDate - 1 * 86400, day_message, false⟩

/-- The wedding-morning reminder entry created by
`schedule_wedding_reminders`. -/
def seedEntryMorning : ScheduledMessage := ⟨weddingDate, morning_message, true⟩

theorem bootFrom_eq (l : List ScheduledMessage) :
    bootFrom l =
      ⟨(remove_duplicate_schedules l).1,
        check_if_schedule_exists (remove_duplicate_schedules l).1⟩ := rfl

theorem schedule_wedding_reminders_eq (s : BotState) :
    schedule_wedding_reminders s =
      if s.schedule_initialized then s
      else
        { scheduled_messages :=
            (add_scheduled_message
              (add_scheduled_message
                (add_scheduled_message s.scheduled_messages
                  (weddingDate - 7 * 86400) week_message false).1
                (weddingDate - 1 * 86400) day_message false).1
              weddingDate morning_message true).1,
          schedule_initialized := s.schedule_initialized } := rfl

theorem seed_init_true (msgs : List ScheduledMessage) :
    schedule_wedding_reminders ⟨msgs, true⟩ = ⟨msgs, true⟩ := by
  rw [schedule_wedding_reminders_eq, if_pos rfl]

theorem add_scheduled_message_eq_append (msgs : List ScheduledMessage) (t : Int)
    (text : String) (b : Bool)
    (h : msgs.any (fun e => decide ((t - e.target_date).natAbs < 60)) = false) :
    add_scheduled_message msgs t text b = (msgs ++ [⟨t, text, b⟩], true) := by
  unfold add_scheduled_message
  rw [if_neg (by simp [h])]

theorem add_scheduled_message_eq_skip (msgs : List ScheduledMessage) (t : Int)
    (text : String) (b : Bool)
    (h : msgs.any (fun e => decide ((t - e.target_date).natAbs < 60)) = true) :
    add_scheduled_message msgs t text b = (msgs, false) := by
  unfold add_scheduled_message
  rw [if_pos h]

theorem check_false_no_match (msgs : List ScheduledMessage)
    (h : check_if_schedule_exists msgs = false) :
    ∀ d ∈ expected_dates,
      msgs.any (fun e => decide ((d - e.target_date).natAbs < 60)) = false := by
  intro d hd
  by_cases hlen : (msgs.length == 0) = true
  · have hnil : msgs = [] := List.length_eq_zero.mp (beq_iff_eq.mp hlen)
    subst hnil
    rfl
  · unfold check_if_schedule_exists at h
    rw [if_neg hlen] at h
    exact Bool.eq_false_iff.mpr (List.any_eq_false.mp h d hd)

theorem seed_on_fresh (msgs : List ScheduledMessage)
    (h : check_if_schedule_exists msgs = false) :
    schedule_wedding_reminders ⟨msgs, false⟩ =
      ⟨msgs ++ [seedEntryWeek, seedEntryDay, seedEntryMorning], false⟩ := by
  have hweek := check_false_no_match msgs h (weddingDate - 7 * 86400)
    (by simp [expected_dates])
  have hday := check_false_no_match msgs h (weddingDate - 1 * 86400)
    (by simp [expected_dates])
  have hmorn := check_false_no_match msgs h weddingDate (by simp [expected_dates])
  have h1 : (add_scheduled_message msgs (weddingDate - 7 * 86400) week_message false).1 =
      msgs ++ [seedEntryWeek] := by
    rw [add_scheduled_message_eq_append _ _ _ _ hweek]
    rfl
  have hg2 : (msgs ++ [seedEntryWeek]).any
      (fun e => decide (((weddingDate - 1 * 86400) - e.target_date).natAbs < 60)) = false := by
    rw [List.any_append, hday, Bool.false_or]
    decide
  have h2 : (add_scheduled_message (msgs ++ [seedEntryWeek])
      (weddingDate - 1 * 86400) day_message false).1 =
      (msgs ++ [seedEntryWeek]) ++ [seedEntryDay] := by
    rw [add_scheduled_message_eq_append _ _ _ _ hg2]
    rfl
  have hg3 : ((msgs ++ [seedEntryWeek]) ++ [seedEntryDay]).any
      (fun e => decide ((weddingDate - e.target_date).natAbs < 60)) = false := by
    rw [List.any_append, List.any_append, hmorn, Bool.false_or]
    decide
  have h3 : (add_scheduled_message ((msgs ++ [seedEntryWeek]) ++ [seedEntryDay])
      weddingDate morning_message true).1 =
      ((msgs ++ [seedEntryWeek]) ++ [seedEntryDay]) ++ [seedEntryMorning] := by
    rw [add_scheduled_message_eq_append _ _ _ _ hg3]
    rfl
  rw [schedule_wedding_reminders_eq, if_neg (by simp)]
  rw [h1, h2, h3]
  simp [List.append_assoc]

theorem check_true_after_seed (msgs : List ScheduledMessage) :
    check_if_schedule_exists
      (msgs ++ [seedEntryWeek, seedEntryDay, seedEntryMorning]) = true := by
  unfold check_if_schedule_exists
  rw [if_neg (by simp)]
  refine List.any_eq_true.mpr ⟨weddingDate, by simp [expected_dates], ?_⟩
  exact List.any_eq_true.mpr ⟨seedEntryMorning, by simp, by decide⟩

theorem separated_after_seed (msgs : List ScheduledMessage) (hs : Separated msgs)
    (hweek : msgs.any
      (fun e => decide (((weddingDate - 7 * 86400) - e.target_date).natAbs < 60)) = false)
    (hday : msgs.any
      (fun e => decide (((weddingDate - 1 * 86400) - e.target_date).natAbs < 60)) = false)
    (hmorn : msgs.any
      (fun e => decide ((weddingDate - e.target_date).natAbs < 60)) = false) :
    Separated (msgs ++ [seedEntryWeek, seedEntryDay, seedEntryMorning]) := by
  refine List.pairwise_append.mpr ⟨hs, by decide, ?_⟩
  intro a ha b hb
  have h1 := List.any_eq_false.mp hweek a ha
  have h2 := List.any_eq_false.mp hday a ha
  have h3 := List.any_eq_false.mp hmorn a ha
  simp only [decide_eq_true_eq] at h1 h2 h3
  simp only [List.mem_cons, List.mem_singleton, List.not_mem_nil, or_false] at hb
  rcases hb with rfl | rfl | rfl
  · show 60 ≤ (a.target_date - (weddingDate - 7 * 86400)).natAbs
    omega
  · show 60 ≤ (a.target_date - (weddingDate - 1 * 86400)).natAbs
    omega
  · show 60 ≤ (a.target_date - weddingDate).natAbs
    omega

theorem seed_noop_after_seed (msgs : List ScheduledMessage) :
    schedule_wedding_reminders
        ⟨msgs ++ [seedEntryWeek, seedEntryDay, seedEntryMorning], false⟩ =
      ⟨msgs ++ [seedEntryWeek, seedEntryDay, seedEntryMorning], false⟩ := by
  have hg1 : (msgs ++ [seedEntryWeek, seedEntryDay, seedEntryMorning]).any
      (fun e => decide (((weddingDate - 7 * 86400) - e.target_date).natAbs < 60)) = true :=
    List.any_eq_true.mpr ⟨seedEntryWeek, by simp, by decide⟩
  have hg2 : (msgs ++ [seedEntryWeek, seedEntryDay, seedEntryMorning]).any
      (fun e => decide (((weddingDate - 1 * 86400) - e.target_date).natAbs < 60)) = true :=
    List.any_eq_true.mpr ⟨seedEntryDay, by simp, by decide⟩
  have hg3 : (msgs ++ [seedEntryWeek, seedEntryDay, seedEntryMorning]).any
      (fun e => decide ((weddingDate - e.target_date).natAbs < 60)) = true :=
    List.any_eq_true.mpr ⟨seedEntryMorning, by simp, by decide⟩
  have h1 : (add_scheduled_message (msgs ++ [seedEntryWeek, seedEntryDay, seedEntryMorning])
      (weddingDate - 7 * 86400) week_message false).1 =
      msgs ++ [seedEntryWeek, seedEntryDay, seedEntryMorning] := by
    rw [add_scheduled_message_eq_skip _ _ _ _ hg1]
  have h2 : (add_scheduled_message (msgs ++ [seedEntryWeek, seedEntryDay, seedEntryMorning])
      (weddingDate - 1 * 86400) day_message false).1 =
      msgs ++ [seedEntryWeek, seedEntryDay, seedEntryMorning] := by
    rw [add_scheduled_message_eq_skip _ _ _ _ hg2]
  have h3 : (add_scheduled_message (msgs ++ [seedEntryWeek, seedEntryDay, seedEntryMorning])
      weddingDate morning_message true).1 =
      msgs ++ [seedEntryWeek, seedEntryDay, seedEntryMorning] := by
    rw [add_scheduled_message_eq_skip _ _ _ _ hg3]
  rw [schedule_wedding_reminders_eq, if_neg (by simp)]
  rw [h1, h2, h3]

/-- C2: seeding the wedding reminders is idempotent — a restart (reload of
the persisted store and recomputation of the initialized check) followed by
a second seeding leaves the schedule unchanged, as does running the seed
twice in the same process; seeding an empty store yields exactly 3
announcements. -/
theorem C2_seed_idempotent (loaded : List ScheduledMessage) :
    ((schedule_wedding_reminders (bootFrom
          (schedule_wedding_reminders (bootFrom loaded)).scheduled_messages)).scheduled_messages
        = (schedule_wedding_reminders (bootFrom loaded)).scheduled_messages) ∧
      ((schedule_wedding_reminders
            (schedule_wedding_reminders (bootFrom loaded))).scheduled_messages
        = (schedule_wedding_reminders (bootFrom loaded)).scheduled_messages) ∧
      (schedule_wedding_reminders (bootFrom [])).scheduled_messages.length = 3 := by
  have hsep0 := separated_remove_duplicate_schedules loaded
  have hlen3 : (schedule_wedding_reminders (bootFrom [])).scheduled_messages.length = 3 := by
    rw [show bootFrom [] = (⟨[], false⟩ : BotState) from rfl, seed_on_fresh [] rfl]
    rfl
  by_cases hinit :
    check_if_schedule_exists (remove_duplicate_schedules loaded).1 = true
  · have hb : bootFrom loaded = ⟨(remove_duplicate_schedules loaded).1, true⟩ := by
      rw [bootFrom_eq, hinit]
    have hb2 : bootFrom (remove_duplicate_schedules loaded).1 =
        ⟨(remove_duplicate_schedules loaded).1, true⟩ := by
      rw [bootFrom_eq]
      simp only [remove_duplicate_schedules_of_separated _ hsep0, hinit]
    refine ⟨?_, ?_, hlen3⟩
    · rw [hb, seed_init_true]
      show (schedule_wedding_reminders
          (bootFrom (remove_duplicate_schedules loaded).1)).scheduled_messages =
        (remove_duplicate_schedules loaded).1
      rw [hb2, seed_init_true]
    · rw [hb, seed_init_true, seed_init_true]
  · have hinitf : check_if_schedule_exists (remove_duplicate_schedules loaded).1 = false :=
      Bool.eq_false_iff.mpr hinit
    have hb : bootFrom loaded = ⟨(remove_duplicate_schedules loaded).1, false⟩ := by
      rw [bootFrom_eq, hinitf]
    have hfresh := seed_on_fresh (remove_duplicate_schedules loaded).1 hinitf
    have hweek := check_false_no_match _ hinitf (weddingDate - 7 * 86400)
      (by simp [expected_dates])
    have hday := check_false_no_match _ hinitf (weddingDate - 1 * 86400)
      (by simp [expected_dates])
    have hmorn := check_false_no_match _ hinitf weddingDate (by simp [expected_dates])
    have hsep3 := separated_after_seed _ hsep0 hweek hday hmorn
    have hb2 : bootFrom ((remove_duplicate_schedules loaded).1 ++
          [seedEntryWeek, seedEntryDay, seedEntryMorning]) =
        ⟨(remove_duplicate_schedules loaded).1 ++
          [seedEntryWeek, seedEntryDay, seedEntryMorning], true⟩ := by
      rw [bootFrom_eq]
      simp only [remove_duplicate_schedules_of_separated _ hsep3, check_true_after_seed]
    refine ⟨?_, ?_, hlen3⟩
    · rw [hb, hfresh]
      show (schedule_wedding_reminders
          (bootFrom ((remove_duplicate_schedules loaded).1 ++
            [seedEntryWeek, seedEntryDay, seedEntryMorning]))).scheduled_messages =
        (remove_duplicate_schedules loaded).1 ++
          [seedEntryWeek, seedEntryDay, seedEntryMorning]
      rw [hb2, seed_init_true]
    · rw [hb, hfresh, seed_noop_after_seed]

end WeddingBot
